import Mathlib

/-!
# Verification of the todo-manager-app repository

Shallow embedding of the Go sources of `CharlesPatterson/todo-manager-app`:
the Mongo-backed repository functions (`src/model/todos_model.go` and the
older variant `src/model/todosModel.go`), the CLI actions
(`src/cmd/todos-app/main.go`), and the HTTP handler layer.  The Mongo
collection is modelled as a list of documents in insertion order; the
driver primitives used by the code (`FindOne`, `Find`, `UpdateOne`,
`FindOneAndUpdate`, `DeleteOne`) act on the first document matching a
filter, exactly as a Mongo collection does in natural order.  Time is an
explicit `Nat` parameter wherever the Go code calls `time.Now()`.
Store-unreachability errors of the real driver are outside the model: a
pure list store is always reachable, so the only errors are the ones the
code itself produces (`mongo.ErrNoDocuments`, `primitive.ErrInvalidHex`,
`errors.New("no todos were deleted")`, `errors.New("cannot add an empty todo")`).
-/

/-- A Mongo ObjectID (`primitive.ObjectID`), identified with the numeric
value of its 12 bytes. -/
structure ObjectID where
  val : Nat
deriving DecidableEq, Repr

/-- The errors produced by the code paths under verification. -/
inductive Err where
  /-- `mongo.ErrNoDocuments` -/
  | noDocuments
  /-- `primitive.ErrInvalidHex`, returned by `primitive.ObjectIDFromHex` -/
  | invalidHex
  /-- `errors.New("no todos were deleted")` from the delete functions -/
  | noTodosDeleted
  /-- `errors.New("cannot add an empty todo")` from the CLI add action -/
  | emptyTodo
deriving DecidableEq, Repr

/-- `err.Error()`: the raw message each error carries, as built by the Go
driver / `errors.New` calls. -/
def Err.message : Err → String
  | .noDocuments => "mongo: no documents in result"
  | .invalidHex => "the provided hex string is not a valid ObjectID"
  | .noTodosDeleted => "no todos were deleted"
  | .emptyTodo => "cannot add an empty todo"

/-- Is `c` a hexadecimal digit, as accepted by Go `encoding/hex`. -/
def isHexDigitCh (c : Char) : Bool :=
  c.isDigit || (decide ('a' ≤ c) && decide (c ≤ 'f')) ||
    (decide ('A' ≤ c) && decide (c ≤ 'F'))

/-- Numeric value of a hexadecimal digit. -/
def hexDigitVal (c : Char) : Nat :=
  if c.isDigit then c.toNat - 48
  else if decide ('a' ≤ c) && decide (c ≤ 'f') then c.toNat - 87
  else c.toNat - 55

/-- Numeric value of a hexadecimal string. -/
def hexVal (s : String) : Nat :=
  s.toList.foldl (fun a c => 16 * a + hexDigitVal c) 0

/-- `primitive.ObjectIDFromHex`: parses a 24-character hexadecimal string
into an ObjectID, failing with `ErrInvalidHex` on any other input. -/
def ObjectIDFromHex (s : String) : Except Err ObjectID :=
  if s.length = 24 && s.toList.all isHexDigitCh then
    .ok ⟨hexVal s⟩
  else
    .error .invalidHex

/-- The persisted `Todo` document (`model.Todo`): `_id`, `created_at`,
`updated_at`, `text`, `completed`. -/
structure Todo where
  id : ObjectID
  created_at : Nat
  updated_at : Nat
  text : String
  completed : Bool
deriving DecidableEq, Repr

/-- `model.TodoDocInput` (from `src/model/todos_model.go`): a
`{text, completed}` document shape declared in the model package; the
present controller binds request bodies into the full `model.Todo`
instead. -/
structure TodoDocInput where
  text : String
  completed : Bool
deriving DecidableEq, Repr

/-- The Mongo collection holding the todos, in insertion (natural) order. -/
abbrev Store := List Todo

/-- The filters the repository passes to the driver: `bson.D{{}}` (match
all), `bson.M{"_id": oid}`, `{"text": text}`, `{"completed": b}`. -/
inductive DocFilter where
  | all
  | byId (oid : ObjectID)
  | byText (t : String)
  | byCompleted (b : Bool)
deriving DecidableEq, Repr

/-- Whether a document matches a filter. -/
def DocFilter.matches : DocFilter → Todo → Bool
  | .all, _ => true
  | .byId oid, t => decide (t.id = oid)
  | .byText s, t => decide (t.text = s)
  | .byCompleted b, t => decide (t.completed = b)

/-- `Collection.FindOne`: the first document matching the filter, in
natural order. -/
def findOne (s : Store) (f : DocFilter) : Option Todo :=
  (s.filter f.matches).head?

/-- `Collection.UpdateOne` / `FindOneAndUpdate` with a `$set` update `u`:
replaces the first matching document, leaving the rest untouched. -/
def updateFirst (f : DocFilter) (u : Todo → Todo) : Store → Store
  | [] => []
  | t :: ts => if f.matches t then u t :: ts else t :: updateFirst f u ts

/-- `Collection.DeleteOne`: removes the first matching document and reports
the `DeletedCount` (0 or 1). -/
def deleteFirst (f : DocFilter) : Store → Store × Nat
  | [] => ([], 0)
  | t :: ts =>
    if f.matches t then (ts, 1)
    else (t :: (deleteFirst f ts).1, (deleteFirst f ts).2)

namespace Model
/-! Repository functions of `src/model/todos_model.go`.  Each mutating
function returns `Except Err Store`: `.ok` carries the collection after the
call, `.error e` means the function returned error `e` before (or instead
of) modifying the collection, which is then unchanged. -/

/-- `model.CreateTodo`: `InsertOne` appends the document. -/
def CreateTodo (s : Store) (todo : Todo) : Store :=
  s ++ [todo]

/-- `model.FilterTodos`: collects every matching document in natural order
and returns `mongo.ErrNoDocuments` when the result set is empty. -/
def FilterTodos (s : Store) (f : DocFilter) : Except Err (List Todo) :=
  let todos := s.filter f.matches
  if todos.length = 0 then .error .noDocuments else .ok todos

/-- `model.GetAll`: `FilterTodos` with the empty (match-all) filter. -/
def GetAll (s : Store) : Except Err (List Todo) :=
  FilterTodos s .all

/-- `model.GetPending`: `FilterTodos` with `{"completed": false}`. -/
def GetPending (s : Store) : Except Err (List Todo) :=
  FilterTodos s (.byCompleted false)

/-- `model.GetFinished`: `FilterTodos` with `{"completed": true}`. -/
def GetFinished (s : Store) : Except Err (List Todo) :=
  FilterTodos s (.byCompleted true)

/-- `model.GetTodoById`: parses the hex id (failing with `ErrInvalidHex`
before touching the collection), then `FindOne` by `_id`, failing with
`ErrNoDocuments` when absent. -/
def GetTodoById (s : Store) (id : String) : Except Err Todo :=
  match ObjectIDFromHex id with
  | .error e => .error e
  | .ok oid =>
    match findOne s (.byId oid) with
    | none => .error .noDocuments
    | some t => .ok t

/-- `model.UpdateTodo` (from `src/model/todos_model.go`): parses the id,
`FindOne`s the existing document (failing with `ErrNoDocuments` if absent,
before any write), then `UpdateOne` with
`$set {completed, text, updated_at: time.Now()}`. -/
def UpdateTodo (s : Store) (todo : Todo) (id : String) (now : Nat) :
    Except Err Store :=
  match ObjectIDFromHex id with
  | .error e => .error e
  | .ok oid =>
    match findOne s (.byId oid) with
    | none => .error .noDocuments
    | some _ =>
      .ok (updateFirst (.byId oid)
        (fun t => { t with completed := todo.completed, text := todo.text,
                           updated_at := now }) s)

/-- `model.CompleteTodo`: `FindOneAndUpdate` by `{"text": text}` with
`$set {completed: true}`; `Decode` fails with `ErrNoDocuments` when no
document matches (and nothing is updated). -/
def CompleteTodo (s : Store) (text : String) : Except Err Store :=
  match findOne s (.byText text) with
  | none => .error .noDocuments
  | some _ =>
    .ok (updateFirst (.byText text) (fun t => { t with completed := true }) s)

/-- `model.DeleteTodoById`: parses the id, `DeleteOne` by `_id`, and fails
with `"no todos were deleted"` when `DeletedCount = 0`. -/
def DeleteTodoById (s : Store) (id : String) : Except Err Store :=
  match ObjectIDFromHex id with
  | .error e => .error e
  | .ok oid =>
    if (deleteFirst (.byId oid) s).2 = 0 then .error .noTodosDeleted
    else .ok (deleteFirst (.byId oid) s).1

/-- `model.DeleteTodo`: `DeleteOne` by `{"text": text}`, failing with
`"no todos were deleted"` when `DeletedCount = 0`. -/
def DeleteTodo (s : Store) (text : String) : Except Err Store :=
  if (deleteFirst (.byText text) s).2 = 0 then .error .noTodosDeleted
  else .ok (deleteFirst (.byText text) s).1

end Model

namespace TodosModel
/-! The older repository variant `src/model/todosModel.go`.  Its functions
coincide with `Model` except `UpdateTodo`, which returns `(*Todo, error)`:
the returned document is `t`, decoded by `FindOne` BEFORE the `$set`
update is applied, so it carries the pre-update field values. -/

/-- `model.UpdateTodo` (from `src/model/todosModel.go`): like
`Model.UpdateTodo`, but returns the document decoded before the update
together with the updated collection.  The Go code returns `t` fetched by
`FindOne` prior to `UpdateOne`, whose result is discarded. -/
def UpdateTodo (s : Store) (todo : Todo) (id : String) (now : Nat) :
    Except Err (Todo × Store) :=
  match ObjectIDFromHex id with
  | .error e => .error e
  | .ok oid =>
    match findOne s (.byId oid) with
    | none => .error .noDocuments
    | some t =>
      .ok (t, updateFirst (.byId oid)
        (fun d => { d with completed := todo.completed, text := todo.text,
                           updated_at := now }) s)

end TodosModel

namespace Cli
/-! CLI actions of `src/cmd/todos-app/main.go`. -/

/-- What a CLI listing action produces for the user. -/
inductive Outcome where
  /-- `PrintTodos(todos)` was called on this list. -/
  | printed (todos : List Todo)
  /-- The friendly empty message ("Nothing to see here...") was printed
  and nil was returned. -/
  | emptyMessage
  /-- The action returned this error (fatally logged by `app.Run`). -/
  | failed (e : Err)
deriving DecidableEq, Repr

/-- The `add` command Action: rejects an empty first argument with
`errors.New("cannot add an empty todo")` before building the document;
otherwise builds a `Todo` with a fresh ObjectID, `CreatedAt` and
`UpdatedAt` both `time.Now()`, the argument as text and
`Completed: false`, and persists it with `model.CreateTodo`. -/
def addAction (s : Store) (arg : String) (freshId : ObjectID) (now : Nat) :
    Except Err Store :=
  if arg = "" then .error .emptyTodo
  else .ok (Model.CreateTodo s
    { id := freshId, created_at := now, updated_at := now,
      text := arg, completed := false })

/-- The default (no subcommand) Action: `model.GetPending`; when it fails
with exactly `mongo.ErrNoDocuments` the friendly empty message is printed
and nil returned, any other error is returned, and on success the todos
are printed. -/
def defaultAction (s : Store) : Outcome :=
  match Model.GetPending s with
  | .error .noDocuments => .emptyMessage
  | .error e => .failed e
  | .ok todos => .printed todos

/-- The `done` command Action: `model.CompleteTodo` on the first argument. -/
def doneAction (s : Store) (arg : String) : Except Err Store :=
  Model.CompleteTodo s arg

/-- The `delete` command Action: `model.DeleteTodo` on the first argument. -/
def deleteAction (s : Store) (arg : String) : Except Err Store :=
  Model.DeleteTodo s arg

end Cli

namespace Controller
/-! The HTTP handler layer: the `package controller` source concatenated
into `src/middleware/basicauth_middleware.go` after the document
separator (`GetTodoByIdHandler`, `UpdateTodoByIdHandler`,
`CreateTodoHandler`, `GetAllTodosHandler`, `DeleteTodoByIdHandler`).
`c.BindJSON(&todo)` binds a request body into `model.Todo`, which carries
no `binding` validation tags, so any structurally well-formed body binds
(missing fields become zero values); the handlers below take the bound
`Todo` as a parameter, embedding the bound-successfully path — on a
malformed body the Go handler returns without calling the repository,
leaving the store unchanged. -/

/-- An HTTP response body as produced by `c.JSON`/`c.IndentedJSON`. -/
inductive HttpBody where
  | record (t : Todo)
  | records (ts : List Todo)
  /-- `gin.H{"error": err.Error()}` -/
  | errMsg (s : String)
  | empty
deriving DecidableEq, Repr

/-- An HTTP response: status code and JSON body. -/
structure HttpResponse where
  status : Nat
  body : HttpBody
deriving DecidableEq, Repr

/-- `controller.GetTodoByIdHandler`: calls `model.GetTodoById` with the
path id and answers `200 + record` on success; on any failure `500` with
`gin.H{"error": err.Error()}` — not-found and invalid-id
undifferentiated. -/
def GetTodoByIdHandler (s : Store) (id : String) : HttpResponse :=
  match Model.GetTodoById s id with
  | .error e => ⟨500, .errMsg e.message⟩
  | .ok t => ⟨200, .record t⟩

/-- `controller.GetAllTodosHandler`: calls `model.GetAll` and answers
`200 + array` on success, `500` with the raw error message on failure. -/
def GetAllTodosHandler (s : Store) : HttpResponse :=
  match Model.GetAll s with
  | .error e => ⟨500, .errMsg e.message⟩
  | .ok ts => ⟨200, .records ts⟩

/-- `controller.DeleteTodoByIdHandler`: calls `model.DeleteTodoById` with
the path id; `204` (StatusNoContent) on success, `500` with the raw error
message on failure. -/
def DeleteTodoByIdHandler (s : Store) (id : String) : HttpResponse × Store :=
  match Model.DeleteTodoById s id with
  | .error e => (⟨500, .errMsg e.message⟩, s)
  | .ok s2 => (⟨204, .empty⟩, s2)

/-- `controller.UpdateTodoByIdHandler`: binds the body into a `model.Todo`
(`todo`), calls `model.UpdateTodo` — the two-value variant of
`src/model/todosModel.go`, which returns the document it decoded BEFORE
applying the `$set` — and answers `200` with that returned record
(`c.IndentedJSON(http.StatusOK, updatedTodo)`), or `500` with the raw
error message on failure.  `model.UpdateTodo` reads only `todo.Text` and
`todo.Completed` from the bound body. -/
def UpdateTodoByIdHandler (s : Store) (id : String) (todo : Todo)
    (now : Nat) : HttpResponse × Store :=
  match TodosModel.UpdateTodo s todo id now with
  | .error e => (⟨500, .errMsg e.message⟩, s)
  | .ok r => (⟨200, .record r.1⟩, r.2)

/-- `controller.CreateTodoHandler`: binds the body into a `model.Todo`
(`newTodo`) — with no validation tags an empty text binds fine — then
overwrites `newTodo.CreatedAt` and `newTodo.UpdatedAt` with `time.Now()`
and `newTodo.ID` with a fresh `primitive.NewObjectID()`, persists it with
`model.CreateTodo`, and answers `201` (StatusCreated) with the persisted
record. -/
def CreateTodoHandler (s : Store) (newTodo : Todo) (freshId : ObjectID)
    (now : Nat) : HttpResponse × Store :=
  (⟨201, .record { id := freshId, created_at := now, updated_at := now,
                   text := newTodo.text, completed := newTodo.completed }⟩,
   Model.CreateTodo s
     { id := freshId, created_at := now, updated_at := now,
       text := newTodo.text, completed := newTodo.completed })

end Controller

/-- The store states reachable through the surfaces of the program,
starting from the empty collection: creation through the CLI `add` action
(which rejects empty text) or through POST /todos
(`controller.CreateTodoHandler`, which does not validate the text);
completion, update and the deletes through the repository calls as the
surfaces invoke them.  The flags exclude the POST surface
(`allowPost = false`) and the update-by-id surface
(`allowUpdate = false`). -/
inductive Reach (allowPost allowUpdate : Bool) : Store → Prop where
  | init : Reach allowPost allowUpdate []
  | add {s arg freshId now s2} : Reach allowPost allowUpdate s →
      Cli.addAction s arg freshId now = .ok s2 →
      Reach allowPost allowUpdate s2
  | post {s newTodo freshId now resp s2} : Reach allowPost allowUpdate s →
      allowPost = true →
      Controller.CreateTodoHandler s newTodo freshId now = (resp, s2) →
      Reach allowPost allowUpdate s2
  | update {s todo id now s2} : Reach allowPost allowUpdate s →
      allowUpdate = true →
      Model.UpdateTodo s todo id now = .ok s2 →
      Reach allowPost allowUpdate s2
  | complete {s text s2} : Reach allowPost allowUpdate s →
      Model.CompleteTodo s text = .ok s2 → Reach allowPost allowUpdate s2
  | deleteById {s id s2} : Reach allowPost allowUpdate s →
      Model.DeleteTodoById s id = .ok s2 → Reach allowPost allowUpdate s2
  | deleteByText {s text s2} : Reach allowPost allowUpdate s →
      Model.DeleteTodo s text = .ok s2 → Reach allowPost allowUpdate s2

instance {ε α} [DecidableEq ε] [DecidableEq α] : DecidableEq (Except ε α) := fun x y =>
  match x, y with
  | .ok a, .ok b =>
    if h : a = b then isTrue (by rw [h]) else isFalse (fun hc => by cases hc; exact h rfl)
  | .error e, .error f =>
    if h : e = f then isTrue (by rw [h]) else isFalse (fun hc => by cases hc; exact h rfl)
  | .ok _, .error _ => isFalse (fun hc => by cases hc)
  | .error _, .ok _ => isFalse (fun hc => by cases hc)

/-! ## Lemmas about the driver primitives -/

theorem findOne_eq_none_iff (s : Store) (f : DocFilter) :
    findOne s f = none ↔ ∀ t ∈ s, f.matches t = false := by
  simp [findOne, List.head?_eq_none_iff, List.filter_eq_nil_iff]

theorem findOne_cons (hd : Todo) (tl : Store) (f : DocFilter) :
    findOne (hd :: tl) f = if f.matches hd then some hd else findOne tl f := by
  by_cases hm : f.matches hd = true <;> simp [findOne, List.filter_cons, hm]

theorem mem_updateFirst {f : DocFilter} {u : Todo → Todo} {s : Store} {t : Todo}
    (h : t ∈ updateFirst f u s) :
    t ∈ s ∨ ∃ t0 ∈ s, f.matches t0 = true ∧ t = u t0 := by
  induction s with
  | nil => simp [updateFirst] at h
  | cons hd tl ih =>
    rw [updateFirst] at h
    by_cases hm : f.matches hd = true
    · rw [if_pos hm] at h
      rcases List.mem_cons.mp h with h1 | h1
      · exact Or.inr ⟨hd, List.mem_cons_self hd tl, hm, h1⟩
      · exact Or.inl (List.mem_cons_of_mem hd h1)
    · rw [if_neg hm] at h
      rcases List.mem_cons.mp h with h1 | h1
      · exact Or.inl (h1 ▸ List.mem_cons_self hd tl)
      · rcases ih h1 with h2 | ⟨t0, ht0, hmt0, heq⟩
        · exact Or.inl (List.mem_cons_of_mem hd h2)
        · exact Or.inr ⟨t0, List.mem_cons_of_mem hd ht0, hmt0, heq⟩

theorem findOne_updateFirst (f : DocFilter) (u : Todo → Todo) (s : Store)
    (h : ∀ t, f.matches t = true → f.matches (u t) = true) :
    findOne (updateFirst f u s) f = (findOne s f).map u := by
  induction s with
  | nil => rfl
  | cons hd tl ih =>
    by_cases hm : f.matches hd = true
    · rw [updateFirst, if_pos hm, findOne_cons, if_pos (h hd hm),
        findOne_cons, if_pos hm]
      rfl
    · rw [updateFirst, if_neg hm, findOne_cons, if_neg hm,
        findOne_cons, if_neg hm]
      exact ih

theorem updateFirst_map_eq {α : Type} (f : DocFilter) (u : Todo → Todo)
    (proj : Todo → α) (h : ∀ t, proj (u t) = proj t) (s : Store) :
    (updateFirst f u s).map proj = s.map proj := by
  induction s with
  | nil => rfl
  | cons hd tl ih =>
    by_cases hm : f.matches hd = true
    · simp [updateFirst, if_pos hm, h hd]
    · simp [updateFirst, if_neg hm, ih]

theorem deleteFirst_of_none {f : DocFilter} {s : Store}
    (h : findOne s f = none) : deleteFirst f s = (s, 0) := by
  rw [findOne_eq_none_iff] at h
  induction s with
  | nil => rfl
  | cons hd tl ih =>
    have hhd : ¬ (f.matches hd = true) := by
      simp [h hd (List.mem_cons_self hd tl)]
    rw [deleteFirst, if_neg hhd,
      ih (fun t ht => h t (List.mem_cons_of_mem hd ht))]

theorem deleteFirst_of_some {f : DocFilter} {s : Store} {t0 : Todo}
    (h : findOne s f = some t0) :
    (deleteFirst f s).2 = 1 ∧ (deleteFirst f s).1.Sublist s ∧
      (deleteFirst f s).1.length + 1 = s.length := by
  induction s with
  | nil => simp [findOne] at h
  | cons hd tl ih =>
    by_cases hm : f.matches hd = true
    · rw [deleteFirst, if_pos hm]
      exact ⟨rfl, List.sublist_cons_self hd tl, rfl⟩
    · rw [findOne_cons, if_neg hm] at h
      rcases ih h with ⟨h1, h2, h3⟩
      rw [deleteFirst, if_neg hm]
      refine ⟨h1, List.Sublist.cons₂ hd h2, ?_⟩
      simpa [List.length_cons] using h3

theorem mem_deleteFirst {f : DocFilter} {s : Store} {t : Todo}
    (h : t ∈ (deleteFirst f s).1) : t ∈ s := by
  induction s with
  | nil => simp [deleteFirst] at h
  | cons hd tl ih =>
    rw [deleteFirst] at h
    by_cases hm : f.matches hd = true
    · rw [if_pos hm] at h
      exact List.mem_cons_of_mem hd h
    · rw [if_neg hm] at h
      rcases List.mem_cons.mp h with h1 | h1
      · exact h1 ▸ List.mem_cons_self hd tl
      · exact List.mem_cons_of_mem hd (ih h1)

/-! ## Lemmas about the repository operations -/

theorem CompleteTodo_ok_eq {s s2 : Store} {text : String}
    (h : Model.CompleteTodo s text = .ok s2) :
    s2 = updateFirst (.byText text) (fun t => { t with completed := true }) s := by
  unfold Model.CompleteTodo at h
  split at h
  · exact absurd h (by simp)
  · injection h with h
    exact h.symm

theorem DeleteTodo_ok_mem {s s2 : Store} {text : String}
    (h : Model.DeleteTodo s text = .ok s2) : ∀ t ∈ s2, t ∈ s := by
  unfold Model.DeleteTodo at h
  split at h
  · exact absurd h (by simp)
  · injection h with h
    intro t ht
    exact mem_deleteFirst (h ▸ ht)

theorem DeleteTodoById_ok_mem {s s2 : Store} {id : String}
    (h : Model.DeleteTodoById s id = .ok s2) : ∀ t ∈ s2, t ∈ s := by
  unfold Model.DeleteTodoById at h
  split at h
  · exact absurd h (by simp)
  · split at h
    · exact absurd h (by simp)
    · injection h with h
      intro t ht
      exact mem_deleteFirst (h ▸ ht)

/-! ## The claims -/

/-- C3: the repository list operation `FilterTodos` — and with it
`GetAll`, `GetPending` and `GetFinished`, which are `FilterTodos` at fixed
filters — fails with `mongo.ErrNoDocuments` exactly when the set of
matching documents is empty, and the CLI default action converts exactly
that error into the benign empty-list message rather than an error. -/
theorem c3_filterTodos_notFound_iff_empty (s : Store) (f : DocFilter) :
    (Model.FilterTodos s f = .error .noDocuments ↔ s.filter f.matches = []) ∧
    Model.GetAll s = Model.FilterTodos s .all ∧
    Model.GetPending s = Model.FilterTodos s (.byCompleted false) ∧
    Model.GetFinished s = Model.FilterTodos s (.byCompleted true) ∧
    (Model.GetPending s = .error .noDocuments →
      Cli.defaultAction s = .emptyMessage) := by
  refine ⟨⟨?_, ?_⟩, rfl, rfl, rfl, ?_⟩
  · intro h
    unfold Model.FilterTodos at h
    by_cases hl : (s.filter f.matches).length = 0
    · exact List.length_eq_zero.mp hl
    · rw [if_neg hl] at h
      exact absurd h (by simp)
  · intro h
    simp [Model.FilterTodos, h]
  · intro h
    unfold Cli.defaultAction
    rw [h]

/-- C3 witness: on the empty store, listing pending todos fails with
`ErrNoDocuments` and the CLI default action prints the friendly message. -/
theorem c3_witness : Cli.defaultAction [] = .emptyMessage :=
  (c3_filterTodos_notFound_iff_empty [] .all).2.2.2.2 (by decide)

/-- C6: `CompleteTodo` fails with `ErrNoDocuments` (updating nothing) when
no document has the given text, and otherwise sets `completed := true` on
the first document whose text matches, leaving its text (and every other
document) unchanged. -/
theorem c6_completeTodo_spec (s : Store) (text : String) :
    (findOne s (.byText text) = none →
      Model.CompleteTodo s text = .error .noDocuments) ∧
    (∀ t0, findOne s (.byText text) = some t0 →
      Model.CompleteTodo s text =
        .ok (updateFirst (.byText text)
          (fun t => { t with completed := true }) s) ∧
      findOne (updateFirst (.byText text)
          (fun t => { t with completed := true }) s) (.byText text) =
        some { t0 with completed := true }) := by
  constructor
  · intro h
    simp [Model.CompleteTodo, h]
  · intro t0 h
    refine ⟨by simp [Model.CompleteTodo, h], ?_⟩
    rw [findOne_updateFirst (.byText text) (fun t => { t with completed := true })
      s (fun t ht => ht), h]
    rfl

/-- C6 witness: completing the only pending todo by its text succeeds and
flips exactly its completed flag; completing an absent text fails. -/
theorem c6_witness :
    Model.CompleteTodo
        [{ id := ⟨0⟩, created_at := 0, updated_at := 0, text := "a",
           completed := false }] "a" =
      .ok [{ id := ⟨0⟩, created_at := 0, updated_at := 0, text := "a",
             completed := true }] ∧
    Model.CompleteTodo
        [{ id := ⟨0⟩, created_at := 0, updated_at := 0, text := "a",
           completed := false }] "b" = .error .noDocuments := by
  constructor
  · exact ((c6_completeTodo_spec _ "a").2
      { id := ⟨0⟩, created_at := 0, updated_at := 0, text := "a",
        completed := false } (by decide)).1
  · exact (c6_completeTodo_spec _ "b").1 (by decide)

/-- C9: the CLI `add` action with an empty (absent or zero-length)
argument fails with "cannot add an empty todo" and persists nothing; with
a non-empty argument it appends exactly one record carrying that text,
`completed = false` and the fresh id and timestamps. -/
theorem c9_addAction_spec (s : Store) (arg : String) (freshId : ObjectID)
    (now : Nat) :
    Cli.addAction s "" freshId now = .error .emptyTodo ∧
    (arg ≠ "" → Cli.addAction s arg freshId now =
      .ok (s ++ [{ id := freshId, created_at := now, updated_at := now,
                   text := arg, completed := false }])) := by
  constructor
  · rfl
  · intro h
    simp [Cli.addAction, h, Model.CreateTodo]

/-- C9 witness: adding "buy milk" to the empty store persists exactly that
record; adding the empty string fails. -/
theorem c9_witness :
    Cli.addAction [] "buy milk" ⟨7⟩ 3 =
      .ok [{ id := ⟨7⟩, created_at := 3, updated_at := 3, text := "buy milk",
             completed := false }] ∧
    Cli.addAction [] "" ⟨7⟩ 3 = .error .emptyTodo := by
  constructor
  · exact (c9_addAction_spec [] "buy milk" ⟨7⟩ 3).2 (by decide)
  · exact (c9_addAction_spec [] "buy milk" ⟨7⟩ 3).1

/-- C10: `CompleteTodo` only toggles the completed flag: every document's
identifier, creation timestamp, last-update timestamp and text are exactly
as before the call — the completion toggle does not refresh `updated_at` —
whereas `UpdateTodo` does set the updated document's `updated_at` to the
current time. -/
theorem c10_completeTodo_frame (s : Store) (text : String) :
    (∀ s2, Model.CompleteTodo s text = .ok s2 →
      s2.map (fun t => (t.id, t.created_at, t.updated_at, t.text)) =
        s.map (fun t => (t.id, t.created_at, t.updated_at, t.text))) ∧
    (∀ todo id now oid t0, ObjectIDFromHex id = .ok oid →
      findOne s (.byId oid) = some t0 →
      ∃ s2, Model.UpdateTodo s todo id now = .ok s2 ∧
        findOne s2 (.byId oid) =
          some { t0 with completed := todo.completed, text := todo.text,
                         updated_at := now }) := by
  constructor
  · intro s2 h
    rw [CompleteTodo_ok_eq h]
    exact updateFirst_map_eq (.byText text) (fun t => { t with completed := true })
      (fun t => (t.id, t.created_at, t.updated_at, t.text)) (fun t => rfl) s
  · intro todo id now oid t0 hhex hfind
    refine ⟨updateFirst (.byId oid)
        (fun t => { t with completed := todo.completed, text := todo.text,
                           updated_at := now }) s,
      by simp [Model.UpdateTodo, hhex, hfind], ?_⟩
    rw [findOne_updateFirst (.byId oid)
        (fun t => { t with completed := todo.completed, text := todo.text,
                           updated_at := now }) s (fun t ht => ht), hfind]
    rfl

theorem GetTodoById_ok_elim {s : Store} {id : String} {t0 : Todo}
    {oid : ObjectID} (hhex : ObjectIDFromHex id = .ok oid)
    (hget : Model.GetTodoById s id = .ok t0) :
    findOne s (.byId oid) = some t0 := by
  simp only [Model.GetTodoById, hhex] at hget
  cases hf : findOne s (.byId oid) with
  | none => simp [hf] at hget
  | some t1 => simp [hf] at hget; rw [hget]

/-- C5: for both delete operations, when no document matches the filter
the call fails with "no todos were deleted" and `DeleteOne` removed
nothing (the collection is exactly as before); when a matching document
exists the call succeeds and removes exactly one document (the result is a
sublist one shorter). -/
theorem c5_delete_spec (s : Store) (text id : String) (oid : ObjectID) :
    (findOne s (.byText text) = none →
      Model.DeleteTodo s text = .error .noTodosDeleted ∧
      deleteFirst (.byText text) s = (s, 0)) ∧
    (∀ t0, findOne s (.byText text) = some t0 →
      ∃ s2, Model.DeleteTodo s text = .ok s2 ∧ s2.Sublist s ∧
        s2.length + 1 = s.length) ∧
    (ObjectIDFromHex id = .ok oid → findOne s (.byId oid) = none →
      Model.DeleteTodoById s id = .error .noTodosDeleted ∧
      deleteFirst (.byId oid) s = (s, 0)) ∧
    (∀ t0, ObjectIDFromHex id = .ok oid → findOne s (.byId oid) = some t0 →
      ∃ s2, Model.DeleteTodoById s id = .ok s2 ∧ s2.Sublist s ∧
        s2.length + 1 = s.length) := by
  refine ⟨?_, ?_, ?_, ?_⟩
  · intro h
    have hd := deleteFirst_of_none h
    exact ⟨by simp [Model.DeleteTodo, hd], hd⟩
  · intro t0 h
    rcases deleteFirst_of_some h with ⟨h1, h2, h3⟩
    exact ⟨(deleteFirst (.byText text) s).1,
      by simp [Model.DeleteTodo, h1], h2, h3⟩
  · intro hhex h
    have hd := deleteFirst_of_none h
    exact ⟨by simp [Model.DeleteTodoById, hhex, hd], hd⟩
  · intro t0 hhex h
    rcases deleteFirst_of_some h with ⟨h1, h2, h3⟩
    exact ⟨(deleteFirst (.byId oid) s).1,
      by simp [Model.DeleteTodoById, hhex, h1], h2, h3⟩

/-- C5 witness: deleting the only todo by its text removes exactly it;
deleting by a well-formed identifier that is absent fails with
"no todos were deleted". -/
theorem c5_witness :
    (∃ s2, Model.DeleteTodo
        [{ id := ⟨0⟩, created_at := 0, updated_at := 0, text := "a",
           completed := false }] "a" = .ok s2 ∧
      s2.Sublist [{ id := ⟨0⟩, created_at := 0, updated_at := 0, text := "a",
                    completed := false }] ∧ s2.length + 1 = 1) ∧
    Model.DeleteTodoById
        [{ id := ⟨0⟩, created_at := 0, updated_at := 0, text := "a",
           completed := false }] "000000000000000000000001" =
      .error .noTodosDeleted := by
  constructor
  · exact (c5_delete_spec _ "a" "000000000000000000000001" ⟨1⟩).2.1
      { id := ⟨0⟩, created_at := 0, updated_at := 0, text := "a",
        completed := false } (by decide)
  · exact ((c5_delete_spec _ "a" "000000000000000000000001" ⟨1⟩).2.2.1
      (by decide) (by decide)).1

/-- C7: a malformed identifier makes `GetTodoById` fail with
`ErrInvalidHex` before consulting the collection (the result is the same
for every collection), and the GET /todos/\x7bid\x7d handler maps every
`GetTodoById` failure — not-found and invalid-id alike — to status 500
with the raw error message. -/
theorem c7_getTodoById_error_paths (s : Store) (id : String) :
    (ObjectIDFromHex id = .error .invalidHex →
      Model.GetTodoById s id = .error .invalidHex ∧
      Model.GetTodoById s id = Model.GetTodoById [] id) ∧
    (∀ e, Model.GetTodoById s id = .error e →
      Controller.GetTodoByIdHandler s id = ⟨500, .errMsg e.message⟩) := by
  constructor
  · intro h
    constructor <;> simp [Model.GetTodoById, h]
  · intro e h
    unfold Controller.GetTodoByIdHandler
    rw [h]

/-- C7 witness: on the malformed identifier "zz" the lookup fails with the
invalid-hex error and the handler answers 500 with its message; on a
well-formed but absent identifier the handler answers 500 with the
not-found message — the same undifferentiated shape. -/
theorem c7_witness :
    Model.GetTodoById [] "zz" = .error .invalidHex ∧
    Controller.GetTodoByIdHandler [] "zz" =
      ⟨500, .errMsg "the provided hex string is not a valid ObjectID"⟩ ∧
    Controller.GetTodoByIdHandler [] "000000000000000000000000" =
      ⟨500, .errMsg "mongo: no documents in result"⟩ := by
  refine ⟨((c7_getTodoById_error_paths [] "zz").1 (by decide)).1, ?_, ?_⟩
  · exact (c7_getTodoById_error_paths [] "zz").2 .invalidHex
      (((c7_getTodoById_error_paths [] "zz").1 (by decide)).1)
  · exact (c7_getTodoById_error_paths [] "000000000000000000000000").2
      .noDocuments (by decide)

/-- C4: update-by-id first fetches the record by its parsed identifier and
fails with `ErrNoDocuments` when it is absent, before any write; when it
is present, the update succeeds and a subsequent `GetTodoById` returns the
record with the new text and completion, the same identifier and creation
timestamp, and `updated_at` refreshed to the update time — strictly
greater than the creation timestamp whenever the update happens strictly
after creation. -/
theorem c4_updateTodo_spec (s : Store) (todo : Todo) (id : String)
    (now : Nat) :
    (∀ oid, ObjectIDFromHex id = .ok oid → findOne s (.byId oid) = none →
      Model.UpdateTodo s todo id now = .error .noDocuments) ∧
    (∀ t0, Model.GetTodoById s id = .ok t0 → t0.created_at < now →
      ∃ s2, Model.UpdateTodo s todo id now = .ok s2 ∧
        ∃ r, Model.GetTodoById s2 id = .ok r ∧
          r.text = todo.text ∧ r.completed = todo.completed ∧
          r.id = t0.id ∧ r.created_at = t0.created_at ∧
          r.updated_at = now ∧ r.created_at < r.updated_at) := by
  constructor
  · intro oid hhex hfind
    simp [Model.UpdateTodo, hhex, hfind]
  · intro t0 hget hlt
    cases hhex : ObjectIDFromHex id with
    | error e => simp [Model.GetTodoById, hhex] at hget
    | ok oid =>
      have hfind := GetTodoById_ok_elim hhex hget
      refine ⟨updateFirst (.byId oid)
          (fun t => { t with completed := todo.completed, text := todo.text,
                             updated_at := now }) s,
        by simp [Model.UpdateTodo, hhex, hfind], ?_⟩
      refine ⟨{ t0 with completed := todo.completed, text := todo.text,
                        updated_at := now }, ?_, rfl, rfl, rfl, rfl, rfl, hlt⟩
      simp only [Model.GetTodoById, hhex]
      rw [findOne_updateFirst (.byId oid)
          (fun t => { t with completed := todo.completed, text := todo.text,
                             updated_at := now }) s (fun t ht => ht), hfind]
      rfl

/-- C4 witness: the create → get → update → get round-trip on a concrete
store: updating the only record (created at time 0) at time 5 succeeds and
the subsequent lookup returns the new text and completion with
`updated_at = 5 > 0 = created_at`. -/
theorem c4_witness :
    ∃ s2, Model.UpdateTodo
        [{ id := ⟨0⟩, created_at := 0, updated_at := 0, text := "old",
           completed := false }]
        { id := ⟨9⟩, created_at := 9, updated_at := 9, text := "new",
          completed := true } "000000000000000000000000" 5 = .ok s2 ∧
      ∃ r, Model.GetTodoById s2 "000000000000000000000000" = .ok r ∧
        r.text = "new" ∧ r.completed = true ∧
        r.id = ⟨0⟩ ∧ r.created_at = 0 ∧
        r.updated_at = 5 ∧ r.created_at < r.updated_at :=
  (c4_updateTodo_spec
      [{ id := ⟨0⟩, created_at := 0, updated_at := 0, text := "old",
         completed := false }]
      { id := ⟨9⟩, created_at := 9, updated_at := 9, text := "new",
        completed := true } "000000000000000000000000" 5).2
    { id := ⟨0⟩, created_at := 0, updated_at := 0, text := "old",
      completed := false } (by decide) (by decide)

/-- C8: for every successful POST /todos request, the created record
carries the server-assigned identifier and timestamps: whatever
`_id`/`created_at`/`updated_at` the client supplied in the body (bound
into `newTodo` with no validation) is overwritten with a fresh ObjectID
and `time.Now()` before persisting, so the response — `201` with the
persisted record — and the stored record do not depend on them. -/
theorem c8_createTodoHandler_spec (s : Store) (newTodo : Todo)
    (freshId : ObjectID) (now : Nat) :
    Controller.CreateTodoHandler s newTodo freshId now =
      (⟨201, .record { id := freshId, created_at := now, updated_at := now,
                       text := newTodo.text, completed := newTodo.completed }⟩,
       s ++ [{ id := freshId, created_at := now, updated_at := now,
               text := newTodo.text, completed := newTodo.completed }]) ∧
    (∀ cid cca cua,
      Controller.CreateTodoHandler s
        { newTodo with id := cid, created_at := cca, updated_at := cua }
        freshId now =
      Controller.CreateTodoHandler s newTodo freshId now) := by
  constructor
  · rfl
  · intro cid cca cua
    rfl

/-- C8 witness: a POST body carrying a client-chosen identifier and
timestamps is persisted with the server-assigned ones instead, and the
response is 201 with the persisted record. -/
theorem c8_witness :
    Controller.CreateTodoHandler []
        { id := ⟨99⟩, created_at := 77, updated_at := 88, text := "hi",
          completed := false } ⟨1⟩ 2 =
      (⟨201, .record { id := ⟨1⟩, created_at := 2, updated_at := 2,
                       text := "hi", completed := false }⟩,
       [{ id := ⟨1⟩, created_at := 2, updated_at := 2, text := "hi",
          completed := false }]) :=
  (c8_createTodoHandler_spec []
    { id := ⟨99⟩, created_at := 77, updated_at := 88, text := "hi",
      completed := false } ⟨1⟩ 2).1

/-- C1 counterexample: a concrete successful PUT on a store holding one
record (text "old", not completed, updated_at 0), with a body binding to
text "new" and completed true, at time 5.  The response is 200 but its
body is the record as it stood BEFORE the update — old text, old
completion, stale update timestamp — while the store now holds the
updated record, which differs from the response body. -/
theorem c1_counterexample :
    Controller.UpdateTodoByIdHandler
        [{ id := ⟨0⟩, created_at := 0, updated_at := 0, text := "old",
           completed := false }]
        "000000000000000000000000"
        { id := ⟨0⟩, created_at := 0, updated_at := 0, text := "new",
          completed := true } 5 =
      (⟨200, .record { id := ⟨0⟩, created_at := 0, updated_at := 0,
                       text := "old", completed := false }⟩,
       [{ id := ⟨0⟩, created_at := 0, updated_at := 5, text := "new",
          completed := true }]) ∧
    ({ id := ⟨0⟩, created_at := 0, updated_at := 0, text := "old",
       completed := false } : Todo) ≠
      { id := ⟨0⟩, created_at := 0, updated_at := 5, text := "new",
        completed := true } := by
  constructor
  · decide
  · decide

/-- C1 (amended): for every successful PUT /todos/\x7bid\x7d request the
response is status 200, but its body is the record as fetched before the
text/completion overwrite (old text, completion and update timestamp);
the store itself does receive the update, as a subsequent get-by-id
shows. -/
theorem c1_put_returns_pre_update_record (s : Store) (id : String)
    (todo : Todo) (now : Nat) (t0 : Todo)
    (hget : Model.GetTodoById s id = .ok t0) :
    ∃ s2, Controller.UpdateTodoByIdHandler s id todo now =
        (⟨200, .record t0⟩, s2) ∧
      ∃ r, Model.GetTodoById s2 id = .ok r ∧
        r.text = todo.text ∧ r.completed = todo.completed ∧
        r.updated_at = now ∧ r.id = t0.id ∧ r.created_at = t0.created_at := by
  cases hhex : ObjectIDFromHex id with
  | error e => simp [Model.GetTodoById, hhex] at hget
  | ok oid =>
    have hfind := GetTodoById_ok_elim hhex hget
    refine ⟨updateFirst (.byId oid)
        (fun t => { t with completed := todo.completed, text := todo.text,
                           updated_at := now }) s, ?_, ?_⟩
    · simp [Controller.UpdateTodoByIdHandler, TodosModel.UpdateTodo, hhex,
        hfind]
    · refine ⟨{ t0 with completed := todo.completed, text := todo.text,
                        updated_at := now }, ?_, rfl, rfl, rfl, rfl, rfl⟩
      simp only [Model.GetTodoById, hhex]
      rw [findOne_updateFirst (.byId oid)
          (fun t => { t with completed := todo.completed, text := todo.text,
                             updated_at := now }) s (fun t ht => ht), hfind]
      rfl

/-- C1 witness: the amended statement at the concrete counterexample
input: the response body is the stale record, the store the updated one. -/
theorem c1_witness :
    ∃ s2, Controller.UpdateTodoByIdHandler
        [{ id := ⟨0⟩, created_at := 0, updated_at := 0, text := "old",
           completed := false }]
        "000000000000000000000000"
        { id := ⟨0⟩, created_at := 0, updated_at := 0, text := "new",
          completed := true } 5 =
        (⟨200, .record { id := ⟨0⟩, created_at := 0, updated_at := 0,
                         text := "old", completed := false }⟩, s2) ∧
      ∃ r, Model.GetTodoById s2 "000000000000000000000000" = .ok r ∧
        r.text = "new" ∧ r.completed = true ∧ r.updated_at = 5 ∧
        r.id = ⟨0⟩ ∧ r.created_at = 0 :=
  c1_put_returns_pre_update_record
    [{ id := ⟨0⟩, created_at := 0, updated_at := 0, text := "old",
       completed := false }]
    "000000000000000000000000"
    { id := ⟨0⟩, created_at := 0, updated_at := 0, text := "new",
      completed := true } 5
    { id := ⟨0⟩, created_at := 0, updated_at := 0, text := "old",
      completed := false } (by decide)

/-- C2 counterexample: text non-emptiness is NOT an invariant of the
reachable store states, and POST /todos does NOT reject empty text.  A
single POST whose body binds to text "" is persisted with status 201
(`controller.CreateTodoHandler` performs no text validation), so a
reachable store contains a todo with empty text. -/
theorem c2_counterexample :
    ¬ (∀ s : Store, Reach true true s → ∀ t ∈ s, t.text ≠ "") := by
  intro hcl
  have h1 : Controller.CreateTodoHandler []
      { id := ⟨0⟩, created_at := 0, updated_at := 0, text := "",
        completed := false } ⟨1⟩ 2 =
      (⟨201, .record { id := ⟨1⟩, created_at := 2, updated_at := 2,
                       text := "", completed := false }⟩,
       [{ id := ⟨1⟩, created_at := 2, updated_at := 2, text := "",
          completed := false }]) := by decide
  exact hcl _ (Reach.post Reach.init rfl h1)
    { id := ⟨1⟩, created_at := 2, updated_at := 2, text := "",
      completed := false } (List.mem_singleton.mpr rfl) rfl

/-- C2 (amended): of the creation paths, only the CLI add command rejects
an empty text before persisting — POST /todos binds the body with no text
validation and persists an empty text with 201, and update-by-id
overwrites text verbatim — so each todo has non-empty text in exactly
those store states reachable with creation through the CLI add path only
and without update-by-id; text non-emptiness is neither a property of
every creation path nor an invariant of all reachable store states. -/
theorem c2_text_nonempty_cli_creation_only (s : Store)
    (h : Reach false false s) : ∀ t ∈ s, t.text ≠ "" := by
  induction h with
  | init => intro t ht; simp at ht
  | @add s1 arg freshId now s2 hr hok ih =>
    intro t ht
    by_cases ha : arg = ""
    · rw [Cli.addAction, if_pos ha] at hok
      exact absurd hok (by simp)
    · rw [Cli.addAction, if_neg ha] at hok
      injection hok with hok
      rw [← hok] at ht
      simp only [Model.CreateTodo] at ht
      rcases List.mem_append.mp ht with h1 | h1
      · exact ih t h1
      · simp only [List.mem_singleton] at h1
        subst h1
        exact ha
  | @post s1 newTodo freshId now resp s2 hr hallow hok ih =>
    exact absurd hallow (by simp)
  | @update s1 todo id now s2 hr hall hok ih => exact absurd hall (by simp)
  | @complete s1 text s2 hr hok ih =>
    intro t ht
    rw [CompleteTodo_ok_eq hok] at ht
    rcases mem_updateFirst ht with h1 | ⟨t0, ht0, hm, heq⟩
    · exact ih t h1
    · subst heq
      exact ih t0 ht0
  | @deleteById s1 id s2 hr hok ih =>
    intro t ht
    exact ih t (DeleteTodoById_ok_mem hok t ht)
  | @deleteByText s1 text s2 hr hok ih =>
    intro t ht
    exact ih t (DeleteTodo_ok_mem hok t ht)

/-- C2 witness: the amended invariant applied to the concrete reachable
state holding the single todo created by the CLI add action with text
"a". -/
theorem c2_witness :
    ({ id := ⟨0⟩, created_at := 0, updated_at := 0, text := "a",
       completed := false } : Todo).text ≠ "" := by
  have h1 : Cli.addAction [] "a" ⟨0⟩ 0 =
      .ok [{ id := ⟨0⟩, created_at := 0, updated_at := 0, text := "a",
             completed := false }] := by decide
  exact c2_text_nonempty_cli_creation_only _ (Reach.add Reach.init h1) _
    (List.mem_singleton.mpr rfl)

/-- C10 witness: completing the todo "a" (created at 2, last updated at 3)
leaves its timestamps and text untouched, while update-by-id at time 9
refreshes `updated_at` to 9. -/
theorem c10_witness :
    (List.map (fun (t : Todo) => (t.id, t.created_at, t.updated_at, t.text))
        [{ id := ⟨0⟩, created_at := 2, updated_at := 3, text := "a",
           completed := true }] =
      List.map (fun (t : Todo) => (t.id, t.created_at, t.updated_at, t.text))
        [{ id := ⟨0⟩, created_at := 2, updated_at := 3, text := "a",
           completed := false }]) ∧
    (∃ s2, Model.UpdateTodo
        [{ id := ⟨0⟩, created_at := 2, updated_at := 3, text := "a",
           completed := false }]
        { id := ⟨0⟩, created_at := 0, updated_at := 0, text := "b",
          completed := true } "000000000000000000000000" 9 = .ok s2 ∧
      findOne s2 (.byId ⟨0⟩) =
        some { id := ⟨0⟩, created_at := 2, updated_at := 9, text := "b",
               completed := true }) := by
  constructor
  · exact (c10_completeTodo_frame
      [{ id := ⟨0⟩, created_at := 2, updated_at := 3, text := "a",
         completed := false }] "a").1
      [{ id := ⟨0⟩, created_at := 2, updated_at := 3, text := "a",
         completed := true }] (by decide)
  · exact (c10_completeTodo_frame
      [{ id := ⟨0⟩, created_at := 2, updated_at := 3, text := "a",
         completed := false }] "a").2
      { id := ⟨0⟩, created_at := 0, updated_at := 0, text := "b",
        completed := true } "000000000000000000000000" 9 ⟨0⟩
      { id := ⟨0⟩, created_at := 2, updated_at := 3, text := "a",
        completed := false } (by decide) (by decide)
